import Mathlib

/-!
Verification development for the offline-first data synchronization engine
(DataSyncService, src/services/DataSyncService.js).

The Pending Changes Store (this.pendingChanges, a JS object mapping entity
type to an array of change records) is modelled as an association list from
String to List Change.  JS object access pendingChanges[et] (undefined when
the key is absent) is the function lookup below; JS assignment
pendingChanges[et] = v is setKey (replace the binding if present, append it
otherwise).  Date.now() is passed in explicitly as a Nat parameter at each
program point where the source reads the clock.  The JS truthiness test on a
string-valued field (!data.id, !this.authToken) is jsStrFalsy on an
Option String: it holds for a missing value and for the empty string.
-/

/-- A terminally rejected change carries {code, message}
    (DataSyncService.js line 386). -/
structure SyncError where
  code : String
  message : String
deriving DecidableEq

/-- Entity payload: the engine only ever inspects the id field of the data
    object (lines 128-129, 321, 350, 382); the rest of the payload is opaque
    and modelled by a single field. -/
structure EntityData where
  id : Option String
  payload : String
deriving DecidableEq

/-- One change record as pushed by queueChange (lines 137-142): the error
    field is absent (none) until handleSyncErrors attaches it. -/
structure Change where
  action : String
  data : EntityData
  timestamp : Nat
  synced : Bool
  error : Option SyncError
deriving DecidableEq

/-- The Pending Changes Store: this.pendingChanges, a JS object keyed by
    entity type. -/
abbrev Store := List (String × List Change)

/-- JS falsy test for a string-valued slot: undefined or the empty string. -/
def jsStrFalsy (o : Option String) : Bool := o.getD "" == ""

/-- JS property read pendingChanges[et]: none plays undefined. -/
def lookup : Store → String → Option (List Change)
  | [], _ => none
  | (k, v) :: rest, et => if k = et then some v else lookup rest et

/-- The list bound to a key, defaulting to the empty list. -/
def lookupD (s : Store) (et : String) : List Change := (lookup s et).getD []

/-- JS property write pendingChanges[et] = v: overwrite the first binding of
    the key, or append a fresh binding. -/
def setKey : Store → String → List Change → Store
  | [], et, v => [(et, v)]
  | (k, w) :: rest, et, v =>
      if k = et then (k, v) :: rest else (k, w) :: setKey rest et v

/-- Array.prototype.findIndex (lines 349-351, 381-383), with none for -1. -/
def findIndex (p : α → Bool) : List α → Option Nat
  | [] => none
  | a :: l => if p a then some 0 else (findIndex p l).map (· + 1)

/-- Replace the first element satisfying p by its image under f; the
    observable effect of findIndex followed by assignment at the found
    index.  Used only through the bridge lemma below. -/
def updateFirst (p : α → Bool) (f : α → α) : List α → List α
  | [] => []
  | a :: l => if p a then f a :: l else a :: updateFirst p f l

/-- The shared shape of lines 348-357 (resolveConflicts) and 380-388
    (handleSyncErrors): guard on pendingChanges[et], findIndex over the
    array, and, when the index is not -1, an in-place update of the found
    element. -/
def updateAtFirstMatch (s : Store) (et : String) (p : Change → Bool)
    (f : Change → Change) : Store :=
  match lookup s et with
  | none => s
  | some chs =>
    match findIndex p chs with
    | none => s
    | some i =>
      match chs[i]? with
      | none => s
      | some c => setKey s et (chs.set i (f c))

/-- The search predicate of lines 350 and 382:
    change.data.id === id and not change.synced. -/
def pendingWithId (i : String) (c : Change) : Bool :=
  (c.data.id == some i) && !c.synced

/-- queueChange (lines 126-153), restricted to its effect on the store and
    its return value: generate a local id for a create without a truthy id,
    append the entry with synced=false, return data.id after the possible
    mutation.  The persistence write and the eager sync attempt have no
    effect on the store itself.  rand stands for the random suffix of the
    generated local id. -/
def queueChange (s : Store) (et action : String) (d : EntityData)
    (now : Nat) (rand : String) : Store × Option String :=
  let d' := if action == "create" && jsStrFalsy d.id then
      { d with id := some ("local_" ++ toString now ++ "_" ++ rand) }
    else d
  let chs := (lookup s et).getD []
  (setKey s et (chs ++ [{ action := action, data := d', timestamp := now,
                          synced := false, error := none }]), d'.id)

/-- getUnsynced (lines 282-294): keep, per entity type, the entries with
    synced=false; a type whose filtered list is empty is not added to the
    result object at all. -/
def getUnsynced : Store → Store
  | [] => []
  | (et, chs) :: rest =>
    if (chs.filter fun c => !c.synced).isEmpty then getUnsynced rest
    else (et, chs.filter fun c => !c.synced) :: getUnsynced rest

/-- ids.includes(change.data.id) (line 321): a missing id is not a member of
    a list of server-reported string ids. -/
def idsContains (ids : List String) : Option String → Bool
  | some i => ids.contains i
  | none => false

/-- The map step of markChangesSynced (lines 319-325): set synced=true on a
    change whose data.id is in the reported id list. -/
def markOne (ids : List String) (c : Change) : Change :=
  if idsContains ids c.data.id then { c with synced := true } else c

/-- The retention predicate of lines 328-331: keep a change unless it is
    synced and its timestamp is at most one hour before now.  The comparison
    is on integers, as in JS, so an early clock (now below one hour) keeps
    everything the way the JS comparison against a negative bound does. -/
def keepAfterSweep (now : Nat) (c : Change) : Bool :=
  !c.synced || decide ((now : Int) - 3600000 < (c.timestamp : Int))

/-- The per-entity-type body of markChangesSynced (lines 319-331): mark the
    reported ids synced, then sweep entries synced for over an hour. -/
def sweepAndMark (ids : List String) (now : Nat) (chs : List Change) :
    List Change :=
  (chs.map (markOne ids)).filter (keepAfterSweep now)

/-- One iteration of the markChangesSynced loop (lines 317-333), guarded on
    pendingChanges[et]. -/
def markForType (s : Store) (et : String) (ids : List String) (now : Nat) :
    Store :=
  match lookup s et with
  | none => s
  | some chs => setKey s et (sweepAndMark ids now chs)

/-- markChangesSynced (lines 316-334): iterate over the entries of the
    syncedIds object. -/
def markChangesSynced : Store → List (String × List String) → Nat → Store
  | s, [], _ => s
  | s, (et, ids) :: rest, now =>
      markChangesSynced (markForType s et ids now) rest now

/-- One reported conflict: {id, serverVersion} (line 345). -/
structure Conflict where
  id : String
  serverVersion : EntityData
deriving DecidableEq

/-- Resolution of a single conflict (lines 344-363): overwrite the data of
    the first unsynced entry carrying the id with the server version and
    mark it synced. -/
def resolveOne (s : Store) (et : String) (cf : Conflict) : Store :=
  updateAtFirstMatch s et (pendingWithId cf.id)
    fun c => { c with data := cf.serverVersion, synced := true }

/-- The inner loop of resolveConflicts over one entity type. -/
def resolveList : Store → String → List Conflict → Store
  | s, _, [] => s
  | s, et, cf :: cs => resolveList (resolveOne s et cf) et cs

/-- resolveConflicts (lines 340-366): iterate over the entries of the
    conflicts object. -/
def resolveConflicts : Store → List (String × List Conflict) → Store
  | s, [] => s
  | s, (et, cs) :: rest => resolveConflicts (resolveList s et cs) rest

/-- One reported per-entry server error: {id, code, message} (line 375). -/
structure ServerError where
  id : String
  code : String
  message : String
deriving DecidableEq

/-- Handling of a single reported error (lines 374-389): only the codes
    INVALID_DATA and PERMISSION_DENIED are terminal; for those, attach the
    error object to the first unsynced entry carrying the id.  Any other
    code is only logged and changes nothing. -/
def handleOneError (s : Store) (et : String) (e : ServerError) : Store :=
  if e.code == "INVALID_DATA" || e.code == "PERMISSION_DENIED" then
    updateAtFirstMatch s et (pendingWithId e.id)
      fun c => { c with error := some { code := e.code, message := e.message } }
  else s

/-- The inner loop of handleSyncErrors over one entity type. -/
def handleErrList : Store → String → List ServerError → Store
  | s, _, [] => s
  | s, et, e :: es => handleErrList (handleOneError s et e) et es

/-- handleSyncErrors (lines 372-392): iterate over the entries of the
    errors object. -/
def handleSyncErrors : Store → List (String × List ServerError) → Store
  | s, [] => s
  | s, (et, es) :: rest => handleSyncErrors (handleErrList s et es) rest

/-- The body of the POST /sync response (line 87 of the spec, lines 264-268
    of the source): syncedIds, conflicts and errors, each keyed by entity
    type; an absent object is the empty list. -/
structure PushResponse where
  syncedIds : List (String × List String)
  conflicts : List (String × List Conflict)
  errors : List (String × List ServerError)
deriving DecidableEq

/-- handleSyncResponse (lines 300-310): resolve conflicts when the conflicts
    object is nonempty, then handle errors when the errors object is
    nonempty. -/
def handleSyncResponse (s : Store) (resp : PushResponse) : Store :=
  let s1 := if resp.conflicts.isEmpty then s else resolveConflicts s resp.conflicts
  if resp.errors.isEmpty then s1 else handleSyncErrors s1 resp.errors

/-- The store effect of a successful push (lines 265-271): process the
    response, then mark the reported syncedIds synced.  now is the clock
    read inside markChangesSynced. -/
def processPushResponse (s : Store) (resp : PushResponse) (now : Nat) : Store :=
  markChangesSynced (handleSyncResponse s resp) resp.syncedIds now

/-- The fields of the service relevant to a sync cycle (constructor,
    lines 10-21). -/
structure SyncState where
  authToken : Option String
  isOnline : Bool
  lastSyncTimestamp : Option Nat
  pendingChanges : Store
deriving DecidableEq

/-- Outcome of one syncData call: the final service state, the returned
    boolean, and how many push network requests were issued (0 or 1). -/
structure SyncOutcome where
  state : SyncState
  ok : Bool
  pushCalls : Nat
deriving DecidableEq

/-- syncData (lines 159-185) together with the bodies of
    pullChangesFromServer (190-214, whose applied server changes never touch
    the pending store), pushChangesToServer (244-276) and
    updateLastSyncTimestamp (114-118).  The network is an oracle: pull is
    the outcome of the GET, push the outcome of the POST.  tStart is the
    wall clock at the moment the cycle begins; the source never reads the
    clock there, so the parameter is unused by the body.  tMark is the clock
    read inside markChangesSynced and tComplete the clock read by
    updateLastSyncTimestamp after both phases.  Every thrown error is caught
    at line 181 and turned into a false return, so the function is total. -/
def syncData (s : SyncState) (pull : Except Unit Unit)
    (push : Except Unit PushResponse) (tStart tMark tComplete : Nat) :
    SyncOutcome :=
  if jsStrFalsy s.authToken then { state := s, ok := false, pushCalls := 0 }
  else if !s.isOnline then { state := s, ok := false, pushCalls := 0 }
  else
    match pull with
    | Except.error _ => { state := s, ok := false, pushCalls := 0 }
    | Except.ok _ =>
      if (getUnsynced s.pendingChanges).isEmpty then
        { state := { s with lastSyncTimestamp := some tComplete },
          ok := true, pushCalls := 0 }
      else
        match push with
        | Except.error _ => { state := s, ok := false, pushCalls := 1 }
        | Except.ok resp =>
          { state := { s with
              pendingChanges := processPushResponse s.pendingChanges resp tMark,
              lastSyncTimestamp := some tComplete },
            ok := true, pushCalls := 1 }

/-- The scheduler state for the overlap question: connectivity, token, and
    the number of syncData cycles past their guards and not yet resolved. -/
structure SchedState where
  isOnline : Bool
  authToken : Option String
  inFlight : Nat
deriving DecidableEq

/-- The guard of the interval tick (line 65): this.isOnline, and nothing
    else. -/
def tickTriggers (s : SchedState) : Bool := s.isOnline

/-- The guards inside syncData (lines 160-168): a truthy auth token and
    isOnline.  No field of the class records an in-progress cycle, so no
    further condition exists in the source. -/
def cycleProceeds (s : SchedState) : Bool :=
  !jsStrFalsy s.authToken && s.isOnline

/-- Interleaving semantics of the scheduler: a tick whose guards pass starts
    one more concurrent cycle (setInterval fires regardless of in-flight
    work, and the un-awaited this.syncData() at line 66 suspends at its
    network calls); a tick whose guards fail does nothing; a running cycle
    may finish.  The tick constructor carries exactly the guards present in
    the source. -/
inductive SchedStep : SchedState → SchedState → Prop
  | tick (s : SchedState) (h1 : tickTriggers s = true)
      (h2 : cycleProceeds s = true) :
      SchedStep s { s with inFlight := s.inFlight + 1 }
  | tickSkip (s : SchedState)
      (h : tickTriggers s = false ∨ cycleProceeds s = false) : SchedStep s s
  | finish (s : SchedState) (h : 0 < s.inFlight) :
      SchedStep s { s with inFlight := s.inFlight - 1 }

/-- Sample change entries and stores for the concrete witnesses below. -/
def wOldSynced : Change :=
  { action := "update", data := { id := some "a", payload := "p" },
    timestamp := 0, synced := true, error := none }

def wUnsyncedB : Change :=
  { action := "update", data := { id := some "b", payload := "q" },
    timestamp := 1, synced := false, error := none }

def wSyncedK : Change :=
  { action := "create", data := { id := some "z", payload := "r" },
    timestamp := 2, synced := true, error := none }

def wStoreC4 : Store := [("tasks", [wOldSynced, wUnsyncedB]), ("keep", [wSyncedK])]

def wUnsyncedU : Change :=
  { action := "update", data := { id := some "u", payload := "p" },
    timestamp := 1, synced := false, error := none }

def wSyncedS : Change :=
  { action := "update", data := { id := some "s", payload := "q" },
    timestamp := 2, synced := true, error := none }

def wStoreC7 : Store := [("a", [wUnsyncedU]), ("b", [wSyncedS])]

theorem lookup_setKey_self (s : Store) (k : String) (v : List Change) :
    lookup (setKey s k v) k = some v := by
  induction s with
  | nil => simp [setKey, lookup]
  | cons hd rest ih =>
    by_cases h : hd.1 = k
    · simp [setKey, lookup, h]
    · simpa [setKey, lookup, h] using ih

theorem lookup_setKey_ne (s : Store) (k k' : String) (v : List Change)
    (h : k' ≠ k) : lookup (setKey s k v) k' = lookup s k' := by
  induction s with
  | nil => simp [setKey, lookup, Ne.symm h]
  | cons hd rest ih =>
    by_cases h1 : hd.1 = k
    · simp [setKey, lookup, h1, Ne.symm h]
    · by_cases h2 : hd.1 = k'
      · simp [setKey, lookup, h1, h2, h]
      · simpa [setKey, lookup, h1, h2] using ih

theorem setKey_self_eq (s : Store) (k : String) (v : List Change)
    (h : lookup s k = some v) : setKey s k v = s := by
  induction s with
  | nil => simp [lookup] at h
  | cons hd rest ih =>
    obtain ⟨k1, v1⟩ := hd
    by_cases h1 : k1 = k
    · subst h1
      simp [lookup] at h
      simp [setKey, h]
    · simp [lookup, h1] at h
      simp [setKey, h1, ih h]

theorem memOfGetQ {α : Type} {l : List α} {i : Nat} {a : α}
    (h : l[i]? = some a) : a ∈ l := by
  induction l generalizing i with
  | nil => simp at h
  | cons b t ih =>
    cases i with
    | zero =>
      simp at h
      simp [h]
    | succ j =>
      simp at h
      exact List.mem_cons_of_mem _ (ih h)

theorem memSetOfNe {α : Type} {l : List α} {i : Nat} {a c : α} (x : α)
    (hc : c ∈ l) (ha : l[i]? = some a) (hne : c ≠ a) : c ∈ l.set i x := by
  induction l generalizing i with
  | nil => cases hc
  | cons b t ih =>
    cases i with
    | zero =>
      simp at ha
      subst ha
      rcases List.mem_cons.mp hc with h | h
      · exact absurd h hne
      · exact List.mem_cons_of_mem _ h
    | succ j =>
      simp at ha
      rcases List.mem_cons.mp hc with h | h
      · exact h ▸ List.mem_cons_self _ _
      · exact List.mem_cons_of_mem _ (ih h ha)

theorem memSetSelf {α : Type} {l : List α} {i : Nat} {a : α} (x : α)
    (h : l[i]? = some a) : x ∈ l.set i x := by
  induction l generalizing i with
  | nil => simp at h
  | cons b t ih =>
    cases i with
    | zero => exact List.mem_cons_self _ _
    | succ j =>
      simp at h
      exact List.mem_cons_of_mem _ (ih h)

theorem findIndex_get {α : Type} {p : α → Bool} {l : List α} {i : Nat}
    (h : findIndex p l = some i) :
    ∃ a, l[i]? = some a ∧ p a = true := by
  induction l generalizing i with
  | nil => simp [findIndex] at h
  | cons b t ih =>
    cases hb : p b with
    | true =>
      simp [findIndex, hb] at h
      exact ⟨b, by simp [← h], hb⟩
    | false =>
      simp [findIndex, hb] at h
      obtain ⟨j, hj, hji⟩ := h
      obtain ⟨a, ha, hpa⟩ := ih hj
      exact ⟨a, by simp [← hji, ha], hpa⟩

theorem updateFirst_of_findIndex_none {α : Type} {p : α → Bool} (f : α → α)
    {l : List α} (h : findIndex p l = none) : updateFirst p f l = l := by
  induction l with
  | nil => rfl
  | cons b t ih =>
    cases hb : p b with
    | true => simp [findIndex, hb] at h
    | false =>
      simp [findIndex, hb] at h
      simp [updateFirst, hb, ih h]

theorem findIndex_isSome_of_exists {α : Type} {p : α → Bool} {l : List α}
    (h : ∃ a, a ∈ l ∧ p a = true) : ∃ i, findIndex p l = some i := by
  induction l with
  | nil =>
    obtain ⟨a, ha, _⟩ := h
    cases ha
  | cons b t ih =>
    cases hb : p b with
    | true => exact ⟨0, by simp [findIndex, hb]⟩
    | false =>
      obtain ⟨a, ha, hpa⟩ := h
      rcases List.mem_cons.mp ha with h1 | h1
      · subst h1
        rw [hb] at hpa
        cases hpa
      · obtain ⟨i, hi⟩ := ih ⟨a, h1, hpa⟩
        exact ⟨i + 1, by simp [findIndex, hb, hi]⟩

theorem setFound_eq_updateFirst {α : Type} (p : α → Bool) (f : α → α)
    (l : List α) :
    (match findIndex p l with
     | none => l
     | some i =>
       match l[i]? with
       | none => l
       | some a => l.set i (f a)) = updateFirst p f l := by
  induction l with
  | nil => rfl
  | cons b t ih =>
    cases hb : p b with
    | true => simp [findIndex, hb, updateFirst]
    | false =>
      cases ht : findIndex p t with
      | none =>
        simp [findIndex, hb, ht, updateFirst,
          updateFirst_of_findIndex_none f ht]
      | some j =>
        obtain ⟨a, ha, hpa⟩ := findIndex_get ht
        simp only [ht, ha] at ih
        simp [findIndex, hb, ht, updateFirst, ha, ih]

theorem mem_updateFirst_of_not_match {α : Type} {p : α → Bool} {f : α → α}
    {l : List α} {c : α} (hc : c ∈ l) (hp : p c = false) :
    c ∈ updateFirst p f l := by
  induction l with
  | nil => cases hc
  | cons b t ih =>
    cases hb : p b with
    | true =>
      rcases List.mem_cons.mp hc with h | h
      · subst h
        rw [hb] at hp
        cases hp
      · simp [updateFirst, hb]
        exact Or.inr h
    | false =>
      rcases List.mem_cons.mp hc with h | h
      · simp [updateFirst, hb, h]
      · simp [updateFirst, hb]
        exact Or.inr (ih h)

theorem mem_updateFirst_elim {α : Type} {p : α → Bool} {f : α → α}
    {l : List α} {c : α} (hc : c ∈ updateFirst p f l) :
    c ∈ l ∨ ∃ x, x ∈ l ∧ p x = true ∧ c = f x := by
  induction l with
  | nil => simp [updateFirst] at hc
  | cons b t ih =>
    cases hb : p b with
    | true =>
      simp [updateFirst, hb] at hc
      rcases hc with h | h
      · exact Or.inr ⟨b, List.mem_cons_self _ _, hb, h⟩
      · exact Or.inl (List.mem_cons_of_mem _ h)
    | false =>
      simp [updateFirst, hb] at hc
      rcases hc with h | h
      · exact Or.inl (by simp [h])
      · rcases ih h with h1 | ⟨x, hx, hpx, hcx⟩
        · exact Or.inl (List.mem_cons_of_mem _ h1)
        · exact Or.inr ⟨x, List.mem_cons_of_mem _ hx, hpx, hcx⟩

theorem updateFirst_exists_mem {α : Type} {p : α → Bool} (f : α → α)
    {l : List α} (h : ∃ a, a ∈ l ∧ p a = true) :
    ∃ x, x ∈ l ∧ p x = true ∧ f x ∈ updateFirst p f l := by
  induction l with
  | nil =>
    obtain ⟨a, ha, _⟩ := h
    cases ha
  | cons b t ih =>
    cases hb : p b with
    | true =>
      exact ⟨b, List.mem_cons_self _ _, hb, by simp [updateFirst, hb]⟩
    | false =>
      obtain ⟨a, ha, hpa⟩ := h
      rcases List.mem_cons.mp ha with h1 | h1
      · subst h1
        rw [hb] at hpa
        cases hpa
      · obtain ⟨x, hx, hpx, hfx⟩ := ih ⟨a, h1, hpa⟩
        refine ⟨x, List.mem_cons_of_mem _ hx, hpx, ?_⟩
        simp [updateFirst, hb]
        exact Or.inr hfx

theorem updateAtFirstMatch_eq (s : Store) (et : String) (p : Change → Bool)
    (f : Change → Change) :
    updateAtFirstMatch s et p f =
      match lookup s et with
      | none => s
      | some chs => setKey s et (updateFirst p f chs) := by
  cases hl : lookup s et with
  | none => simp [updateAtFirstMatch, hl]
  | some chs =>
    cases hf : findIndex p chs with
    | none =>
      simp [updateAtFirstMatch, hl, hf, updateFirst_of_findIndex_none f hf,
        setKey_self_eq s et chs hl]
    | some i =>
      obtain ⟨a, ha, hpa⟩ := findIndex_get hf
      have hbr := setFound_eq_updateFirst p f chs
      simp only [hf, ha] at hbr
      simp [updateAtFirstMatch, hl, hf, ha, hbr]

theorem lookupD_of_lookup {s : Store} {et : String} {chs : List Change}
    (h : lookup s et = some chs) : lookupD s et = chs := by
  simp [lookupD, h]

theorem pendingWithId_of_synced {i : String} {c : Change}
    (h : c.synced = true) : pendingWithId i c = false := by
  simp [pendingWithId, h]

theorem mem_lookupD_updateAtFirstMatch {s : Store} {et2 : String} {c : Change}
    (et : String) (p : Change → Bool) (f : Change → Change)
    (hc : c ∈ lookupD s et2) (hp : p c = false) :
    c ∈ lookupD (updateAtFirstMatch s et p f) et2 := by
  rw [updateAtFirstMatch_eq]
  cases hl : lookup s et with
  | none => exact hc
  | some chs =>
    by_cases he : et2 = et
    · subst he
      rw [lookupD_of_lookup hl] at hc
      simp only [lookupD, lookup_setKey_self, Option.getD_some]
      exact mem_updateFirst_of_not_match hc hp
    · simpa [lookupD, lookup_setKey_ne _ _ _ _ he] using hc

theorem mem_lookupD_updateAtFirstMatch_elim {s : Store} {et et2 : String}
    {p : Change → Bool} {f : Change → Change} {c : Change}
    (hc : c ∈ lookupD (updateAtFirstMatch s et p f) et2) :
    c ∈ lookupD s et2 ∨ ∃ x, x ∈ lookupD s et2 ∧ p x = true ∧ c = f x := by
  rw [updateAtFirstMatch_eq] at hc
  cases hl : lookup s et with
  | none =>
    rw [hl] at hc
    exact Or.inl hc
  | some chs =>
    rw [hl] at hc
    by_cases he : et2 = et
    · subst he
      rw [lookupD_of_lookup hl]
      simp only [lookupD, lookup_setKey_self, Option.getD_some] at hc
      exact mem_updateFirst_elim hc
    · rw [show lookupD (setKey s et (updateFirst p f chs)) et2 = lookupD s et2 by
        simp [lookupD, lookup_setKey_ne _ _ _ _ he]] at hc
      exact Or.inl hc

theorem resolveOne_preserves {s : Store} {et2 : String} {c : Change}
    (et : String) (cf : Conflict) (hs : c.synced = true)
    (hc : c ∈ lookupD s et2) : c ∈ lookupD (resolveOne s et cf) et2 :=
  mem_lookupD_updateAtFirstMatch _ _ _ hc (pendingWithId_of_synced hs)

theorem resolveList_preserves {et2 : String} {c : Change}
    (et : String) (cs : List Conflict) (hs : c.synced = true) :
    ∀ s : Store, c ∈ lookupD s et2 → c ∈ lookupD (resolveList s et cs) et2 := by
  induction cs with
  | nil => intro s hc; exact hc
  | cons cf rest ih =>
    intro s hc
    exact ih _ (resolveOne_preserves et cf hs hc)

theorem resolveConflicts_preserves {et2 : String} {c : Change}
    (conflicts : List (String × List Conflict)) (hs : c.synced = true) :
    ∀ s : Store, c ∈ lookupD s et2 →
      c ∈ lookupD (resolveConflicts s conflicts) et2 := by
  induction conflicts with
  | nil => intro s hc; exact hc
  | cons hd rest ih =>
    intro s hc
    obtain ⟨et, cs⟩ := hd
    exact ih _ (resolveList_preserves et cs hs s hc)

theorem handleOneError_preserves {s : Store} {et2 : String} {c : Change}
    (et : String) (e : ServerError) (hs : c.synced = true)
    (hc : c ∈ lookupD s et2) : c ∈ lookupD (handleOneError s et e) et2 := by
  unfold handleOneError
  split
  · exact mem_lookupD_updateAtFirstMatch _ _ _ hc (pendingWithId_of_synced hs)
  · exact hc

theorem handleErrList_preserves {et2 : String} {c : Change}
    (et : String) (es : List ServerError) (hs : c.synced = true) :
    ∀ s : Store, c ∈ lookupD s et2 → c ∈ lookupD (handleErrList s et es) et2 := by
  induction es with
  | nil => intro s hc; exact hc
  | cons e rest ih =>
    intro s hc
    exact ih _ (handleOneError_preserves et e hs hc)

theorem handleSyncErrors_preserves {et2 : String} {c : Change}
    (errors : List (String × List ServerError)) (hs : c.synced = true) :
    ∀ s : Store, c ∈ lookupD s et2 →
      c ∈ lookupD (handleSyncErrors s errors) et2 := by
  induction errors with
  | nil => intro s hc; exact hc
  | cons hd rest ih =>
    intro s hc
    obtain ⟨et, es⟩ := hd
    exact ih _ (handleErrList_preserves et es hs s hc)

theorem markOne_of_synced {ids : List String} {c : Change}
    (h : c.synced = true) : markOne ids c = c := by
  obtain ⟨a, d, t, sy, er⟩ := c
  simp only [Change.mk.injEq] at h ⊢
  subst h
  unfold markOne
  split <;> rfl

theorem markForType_preserves {s : Store} {et2 : String} {c : Change}
    {now : Nat} (et : String) (ids : List String)
    (hs : c.synced = true)
    (hy : (now : Int) - 3600000 < (c.timestamp : Int))
    (hc : c ∈ lookupD s et2) : c ∈ lookupD (markForType s et ids now) et2 := by
  unfold markForType
  cases hl : lookup s et with
  | none => exact hc
  | some chs =>
    by_cases he : et2 = et
    · subst he
      rw [lookupD_of_lookup hl] at hc
      simp only [lookupD, lookup_setKey_self, Option.getD_some]
      unfold sweepAndMark
      refine List.mem_filter.mpr ⟨?_, ?_⟩
      · exact List.mem_map.mpr ⟨c, hc, markOne_of_synced hs⟩
      · simp [keepAfterSweep, hs, hy]
    · simpa [lookupD, lookup_setKey_ne _ _ _ _ he] using hc

theorem markChangesSynced_preserves {et2 : String} {c : Change} {now : Nat}
    (sids : List (String × List String)) (hs : c.synced = true)
    (hy : (now : Int) - 3600000 < (c.timestamp : Int)) :
    ∀ s : Store, c ∈ lookupD s et2 →
      c ∈ lookupD (markChangesSynced s sids now) et2 := by
  induction sids with
  | nil => intro s hc; exact hc
  | cons hd rest ih =>
    intro s hc
    obtain ⟨et, ids⟩ := hd
    exact ih _ (markForType_preserves et ids hs hy hc)

theorem lookup_markForType_ne {s : Store} {et et2 : String}
    {ids : List String} {now : Nat} (h : et2 ≠ et) :
    lookup (markForType s et ids now) et2 = lookup s et2 := by
  unfold markForType
  cases lookup s et with
  | none => rfl
  | some chs => exact lookup_setKey_ne _ _ _ _ h

theorem lookup_markForType_self (s : Store) (et : String) (ids : List String)
    (now : Nat) :
    lookup (markForType s et ids now) et
      = (lookup s et).map (sweepAndMark ids now) := by
  unfold markForType
  cases hl : lookup s et with
  | none => simp [hl]
  | some chs => simp [lookup_setKey_self]

theorem lookup_markChangesSynced_not_mem {et : String} {now : Nat}
    (sids : List (String × List String)) (h : et ∉ sids.map Prod.fst) :
    ∀ s : Store, lookup (markChangesSynced s sids now) et = lookup s et := by
  induction sids with
  | nil => intro s; rfl
  | cons hd rest ih =>
    intro s
    obtain ⟨et1, ids1⟩ := hd
    simp only [List.map_cons, List.mem_cons] at h
    push_neg at h
    rw [show markChangesSynced s ((et1, ids1) :: rest) now
        = markChangesSynced (markForType s et1 ids1 now) rest now from rfl]
    rw [ih h.2, lookup_markForType_ne h.1]

theorem lookup_markChangesSynced_char {et : String} {ids : List String}
    {now : Nat} (sids : List (String × List String))
    (hnd : (sids.map Prod.fst).Nodup) (hmem : (et, ids) ∈ sids) :
    ∀ s : Store, lookup (markChangesSynced s sids now) et
      = (lookup s et).map (sweepAndMark ids now) := by
  induction sids with
  | nil => cases hmem
  | cons hd rest ih =>
    intro s
    obtain ⟨et1, ids1⟩ := hd
    simp only [List.map_cons, List.nodup_cons] at hnd
    rw [show markChangesSynced s ((et1, ids1) :: rest) now
        = markChangesSynced (markForType s et1 ids1 now) rest now from rfl]
    rcases List.mem_cons.mp hmem with h1 | h1
    · simp only [Prod.mk.injEq] at h1
      obtain ⟨he, hi⟩ := h1
      subst he
      subst hi
      rw [lookup_markChangesSynced_not_mem rest hnd.1,
        lookup_markForType_self]
    · have hne : et ≠ et1 := by
        intro he
        subst he
        exact hnd.1 (List.mem_map_of_mem Prod.fst h1)
      rw [ih hnd.2 h1, lookup_markForType_ne hne]

theorem markOne_idem (ids : List String) (c : Change) :
    markOne ids (markOne ids c) = markOne ids c := by
  cases h : idsContains ids c.data.id with
  | false => simp [markOne, h]
  | true => simp [markOne, h]

theorem map_markOne_of_fix {ids : List String} {l : List Change}
    (h : ∀ c ∈ l, markOne ids c = c) : l.map (markOne ids) = l := by
  induction l with
  | nil => rfl
  | cons b t ih =>
    simp only [List.map_cons, h b (List.mem_cons_self _ _),
      ih fun c hc => h c (List.mem_cons_of_mem _ hc)]

theorem filterKeep_fix (now : Nat) (l : List Change) :
    (l.filter (keepAfterSweep now)).filter (keepAfterSweep now)
      = l.filter (keepAfterSweep now) := by
  induction l with
  | nil => rfl
  | cons b t ih =>
    cases h : keepAfterSweep now b with
    | false => simp [List.filter_cons, h, ih]
    | true => simp [List.filter_cons, h, ih]

theorem sweepAndMark_idem (ids : List String) (now : Nat)
    (chs : List Change) :
    sweepAndMark ids now (sweepAndMark ids now chs)
      = sweepAndMark ids now chs := by
  unfold sweepAndMark
  have h1 : ((chs.map (markOne ids)).filter (keepAfterSweep now)).map
      (markOne ids) = (chs.map (markOne ids)).filter (keepAfterSweep now) := by
    apply map_markOne_of_fix
    intro c hc
    have hc2 := (List.mem_filter.mp hc).1
    obtain ⟨a, _, rfl⟩ := List.mem_map.mp hc2
    exact markOne_idem ids a
  rw [h1, filterKeep_fix]

theorem markChangesSynced_fixed {now : Nat}
    (sids : List (String × List String)) :
    ∀ T : Store, (∀ p ∈ sids, markForType T p.1 p.2 now = T) →
      markChangesSynced T sids now = T := by
  induction sids with
  | nil => intro T _; rfl
  | cons hd rest ih =>
    intro T h
    obtain ⟨et, ids⟩ := hd
    have h0 := h (et, ids) (List.mem_cons_self _ _)
    rw [show markChangesSynced T ((et, ids) :: rest) now
        = markChangesSynced (markForType T et ids now) rest now from rfl]
    rw [show markForType T et ids now = T from h0]
    exact ih T fun p hp => h p (List.mem_cons_of_mem _ hp)

theorem handleOneError_elim {s : Store} {et et2 : String} {e : ServerError}
    {c : Change} (hc : c ∈ lookupD (handleOneError s et e) et2) :
    c ∈ lookupD s et2 ∨ c.synced = false := by
  unfold handleOneError at hc
  split at hc
  · rcases mem_lookupD_updateAtFirstMatch_elim hc with h | ⟨x, hx, hpx, rfl⟩
    · exact Or.inl h
    · right
      simp [pendingWithId] at hpx
      exact hpx.2
  · exact Or.inl hc

theorem handleErrList_elim {et2 : String} {c : Change} (et : String)
    (es : List ServerError) :
    ∀ s : Store, c ∈ lookupD (handleErrList s et es) et2 →
      c ∈ lookupD s et2 ∨ c.synced = false := by
  induction es with
  | nil => intro s hc; exact Or.inl hc
  | cons e rest ih =>
    intro s hc
    rcases ih _ hc with h | h
    · exact handleOneError_elim h
    · exact Or.inr h

theorem lookup_getUnsynced_none (et : String) (s : Store)
    (h : et ∉ s.map Prod.fst) : lookup (getUnsynced s) et = none := by
  induction s with
  | nil => rfl
  | cons hd rest ih =>
    obtain ⟨k, chs⟩ := hd
    simp only [List.map_cons, List.mem_cons] at h
    push_neg at h
    unfold getUnsynced
    split
    · exact ih h.2
    · have hk : ¬k = et := fun hk => h.1 hk.symm
      simp only [lookup, if_neg hk]
      exact ih h.2

theorem getUnsynced_lookup_some (et : String) (u : List Change) (s : Store)
    (hnd : (s.map Prod.fst).Nodup)
    (h : lookup (getUnsynced s) et = some u) :
    ∃ chs, lookup s et = some chs
      ∧ u = chs.filter (fun c => !c.synced) ∧ u ≠ [] := by
  induction s with
  | nil => cases h
  | cons hd rest ih =>
    obtain ⟨k, chs⟩ := hd
    simp only [List.map_cons, List.nodup_cons] at hnd
    unfold getUnsynced at h
    by_cases he : k = et
    · subst he
      split at h
      · rw [lookup_getUnsynced_none k rest hnd.1] at h
        cases h
      · simp only [lookup, if_pos rfl] at h ⊢
        refine ⟨chs, rfl, ?_, ?_⟩
        · injection h with h
          exact h.symm
        · injection h with h
          subst h
          intro hnil
          simp [hnil] at *
    · split at h
      · obtain ⟨chs2, h1, h2, h3⟩ := ih hnd.2 h
        exact ⟨chs2, by simpa [lookup, he] using h1, h2, h3⟩
      · simp only [lookup, if_neg he] at h
        obtain ⟨chs2, h1, h2, h3⟩ := ih hnd.2 h
        exact ⟨chs2, by simpa [lookup, he] using h1, h2, h3⟩

theorem getUnsynced_lookup_of_all_synced (et : String) (chs : List Change)
    (s : Store) (hnd : (s.map Prod.fst).Nodup)
    (h : lookup s et = some chs)
    (hall : chs.filter (fun c => !c.synced) = []) :
    lookup (getUnsynced s) et = none := by
  induction s with
  | nil => cases h
  | cons hd rest ih =>
    obtain ⟨k, chs1⟩ := hd
    simp only [List.map_cons, List.nodup_cons] at hnd
    unfold getUnsynced
    by_cases he : k = et
    · subst he
      simp only [lookup, if_pos rfl] at h
      injection h with h
      subst h
      split
      · exact lookup_getUnsynced_none k rest hnd.1
      · rename_i hne
        rw [hall] at hne
        simp at hne
    · simp only [lookup, if_neg he] at h
      split
      · exact ih hnd.2 h
      · simp only [lookup, if_neg he]
        exact ih hnd.2 h

theorem getUnsynced_eq_nil_iff (s : Store) :
    getUnsynced s = [] ↔ ∀ p ∈ s, ∀ c ∈ p.2, c.synced = true := by
  induction s with
  | nil => simp [getUnsynced]
  | cons hd rest ih =>
    obtain ⟨k, chs⟩ := hd
    unfold getUnsynced
    split
    · rename_i hemp
      rw [ih]
      constructor
      · intro hall p hp c hc
        rcases List.mem_cons.mp hp with h1 | h1
        · subst h1
          have := List.filter_eq_nil_iff.mp (List.isEmpty_iff.mp hemp) c hc
          simpa using this
        · exact hall p h1 c hc
      · intro hall p hp c hc
        exact hall p (List.mem_cons_of_mem _ hp) c hc
    · rename_i hemp
      constructor
      · intro h
        cases h
      · intro hall
        exfalso
        apply hemp
        rw [List.isEmpty_iff, List.filter_eq_nil_iff]
        intro c hc
        simp [hall (k, chs) (List.mem_cons_self _ _) c hc]

/-- Claim C1, corrected.  The claim says the Sync Checkpoint is updated to
    the time recorded at the start of the cycle; the code records no such
    time: updateLastSyncTimestamp (lines 114-118) reads Date.now() after
    both phases, so the checkpoint is always the wall clock at completion.
    Amended statement: for every cycle in which both phases succeed (a push
    is skipped when there is nothing unsynced), lastSyncTimestamp is set to
    the completion-time clock tComplete, whatever the cycle-start clock
    was. -/
theorem C1_checkpoint_is_completion_time (s : SyncState)
    (push : Except Unit PushResponse) (tStart tMark tComplete : Nat)
    (hAuth : jsStrFalsy s.authToken = false) (hOn : s.isOnline = true)
    (hPush : (getUnsynced s.pendingChanges).isEmpty = true
      ∨ ∃ resp, push = Except.ok resp) :
    (syncData s (Except.ok ()) push tStart tMark tComplete).ok = true
    ∧ (syncData s (Except.ok ()) push tStart tMark
        tComplete).state.lastSyncTimestamp = some tComplete := by
  rcases hPush with h | ⟨resp, rfl⟩
  · constructor <;> simp [syncData, hAuth, hOn, h]
  · by_cases h2 : (getUnsynced s.pendingChanges).isEmpty
    · constructor <;> simp [syncData, hAuth, hOn, h2]
    · constructor <;> simp [syncData, hAuth, hOn, h2]

/-- Witness for C1_checkpoint_is_completion_time at a concrete state with a
    nonempty unsynced queue and a successful push. -/
theorem C1_checkpoint_is_completion_time_w :
    (syncData
      { authToken := some "t", isOnline := true, lastSyncTimestamp := some 1000,
        pendingChanges :=
          [("tasks", [{ action := "update", data := { id := some "a", payload := "p" },
                        timestamp := 5, synced := false, error := none }])] }
      (Except.ok ())
      (Except.ok { syncedIds := [("tasks", ["a"])], conflicts := [], errors := [] })
      10 20 30).ok = true
    ∧ (syncData
      { authToken := some "t", isOnline := true, lastSyncTimestamp := some 1000,
        pendingChanges :=
          [("tasks", [{ action := "update", data := { id := some "a", payload := "p" },
                        timestamp := 5, synced := false, error := none }])] }
      (Except.ok ())
      (Except.ok { syncedIds := [("tasks", ["a"])], conflicts := [], errors := [] })
      10 20 30).state.lastSyncTimestamp = some 30 :=
  C1_checkpoint_is_completion_time _ _ 10 20 30 (by decide) rfl
    (Or.inr ⟨_, rfl⟩)

/-- Counterexample to claim C1 as stated: a cycle whose start clock is 1500
    and whose completion clock is 2000 succeeds (empty unsynced queue, so no
    push needed, matching concrete scenario 3 of the spec) and leaves the
    checkpoint at 2000, the completion time, not at the cycle-start time
    1500. -/
theorem C1_checkpoint_cex :
    (syncData
      { authToken := some "t", isOnline := true, lastSyncTimestamp := some 1000,
        pendingChanges := [] }
      (Except.ok ())
      (Except.ok { syncedIds := [], conflicts := [], errors := [] })
      1500 1600 2000).ok = true
    ∧ (syncData
      { authToken := some "t", isOnline := true, lastSyncTimestamp := some 1000,
        pendingChanges := [] }
      (Except.ok ())
      (Except.ok { syncedIds := [], conflicts := [], errors := [] })
      1500 1600 2000).state.lastSyncTimestamp ≠ some 1500
    ∧ (syncData
      { authToken := some "t", isOnline := true, lastSyncTimestamp := some 1000,
        pendingChanges := [] }
      (Except.ok ())
      (Except.ok { syncedIds := [], conflicts := [], errors := [] })
      1500 1600 2000).state.lastSyncTimestamp = some 2000 := by
  refine ⟨by decide, by decide, by decide⟩

/-- Claim C2, confirmed.  When the pull phase fails (the GET request throws,
    for a network failure or a server error status), syncData re-catches the
    error rethrown by pullChangesFromServer and returns false: the push is
    never attempted (zero push network calls), the whole service state,
    checkpoint included, is unchanged, and no exception escapes (syncData is
    a total function into an outcome value). -/
theorem C2_pull_failure_aborts_cycle (s : SyncState)
    (push : Except Unit PushResponse) (tStart tMark tComplete : Nat)
    (hAuth : jsStrFalsy s.authToken = false) (hOn : s.isOnline = true) :
    syncData s (Except.error ()) push tStart tMark tComplete
      = { state := s, ok := false, pushCalls := 0 } := by
  simp [syncData, hAuth, hOn]

/-- Witness for C2_pull_failure_aborts_cycle at a concrete state. -/
theorem C2_pull_failure_aborts_cycle_w :
    syncData
      { authToken := some "t", isOnline := true, lastSyncTimestamp := some 1000,
        pendingChanges :=
          [("tasks", [{ action := "update", data := { id := some "a", payload := "p" },
                        timestamp := 5, synced := false, error := none }])] }
      (Except.error ())
      (Except.ok { syncedIds := [("tasks", ["a"])], conflicts := [], errors := [] })
      1 2 3
    = { state :=
          { authToken := some "t", isOnline := true, lastSyncTimestamp := some 1000,
            pendingChanges :=
              [("tasks", [{ action := "update", data := { id := some "a", payload := "p" },
                            timestamp := 5, synced := false, error := none }])] },
        ok := false, pushCalls := 0 } :=
  C2_pull_failure_aborts_cycle _ _ 1 2 3 (by decide) rfl

/-- Claim C6, corrected.  The claim says a tick during an in-progress cycle
    is suppressed.  The source has no suppression: the interval callback
    (line 65) checks only isOnline, syncData (lines 160-168) checks only the
    token and isOnline, and no field records an in-progress cycle.  Amended
    statement: whenever the service is online with a truthy token, ticks
    alone reach any number of concurrently in-flight cycles. -/
theorem C6_no_overlap_suppression (s : SchedState)
    (hOn : s.isOnline = true) (hTok : jsStrFalsy s.authToken = false)
    (n : Nat) :
    Relation.ReflTransGen SchedStep s
      { s with inFlight := s.inFlight + n } := by
  induction n with
  | zero =>
    have h : { s with inFlight := s.inFlight + 0 } = s := by
      obtain ⟨a, b, c⟩ := s
      rfl
    rw [h]
  | succ k ih =>
    refine Relation.ReflTransGen.tail ih ?_
    have h1 : tickTriggers { s with inFlight := s.inFlight + k } = true := hOn
    have h2 : cycleProceeds { s with inFlight := s.inFlight + k } = true := by
      simp [cycleProceeds, hOn, hTok]
    exact SchedStep.tick _ h1 h2

/-- Witness for C6_no_overlap_suppression: three ticks from an idle online
    state reach three concurrent cycles. -/
theorem C6_no_overlap_suppression_w :
    Relation.ReflTransGen SchedStep
      { isOnline := true, authToken := some "t", inFlight := 0 }
      { isOnline := true, authToken := some "t", inFlight := 3 } :=
  C6_no_overlap_suppression
    { isOnline := true, authToken := some "t", inFlight := 0 } rfl (by decide) 3

/-- Counterexample to claim C6 as stated: from an online state with a token,
    a tick starts a cycle, and with that cycle still in flight a second tick
    starts another cycle instead of being suppressed. -/
theorem C6_overlap_cex :
    SchedStep { isOnline := true, authToken := some "t", inFlight := 0 }
        { isOnline := true, authToken := some "t", inFlight := 1 }
    ∧ SchedStep { isOnline := true, authToken := some "t", inFlight := 1 }
        { isOnline := true, authToken := some "t", inFlight := 2 } :=
  ⟨SchedStep.tick _ rfl (by decide), SchedStep.tick _ rfl (by decide)⟩

/-- Claim C8, confirmed.  markChangesSynced is idempotent: applying it twice
    with the same syncedIds mapping (a JS object, hence with pairwise
    distinct entity-type keys) at the same clock gives the same store as
    applying it once, because the referenced entries are already synced and
    the sweep has already removed everything the second sweep would. -/
theorem C8_markSynced_idempotent (s : Store)
    (sids : List (String × List String)) (now : Nat)
    (hnd : (sids.map Prod.fst).Nodup) :
    markChangesSynced (markChangesSynced s sids now) sids now
      = markChangesSynced s sids now := by
  apply markChangesSynced_fixed
  intro p hp
  obtain ⟨et, ids⟩ := p
  have hchar := @lookup_markChangesSynced_char et ids now sids hnd hp s
  cases hl : lookup s et with
  | none =>
    rw [hl] at hchar
    simp only [Option.map_none'] at hchar
    simp only [markForType, hchar]
  | some chs =>
    rw [hl] at hchar
    simp only [Option.map_some'] at hchar
    simp only [markForType, hchar]
    rw [sweepAndMark_idem]
    exact setKey_self_eq _ _ _ hchar

/-- Witness for C8_markSynced_idempotent at a concrete store and id set. -/
theorem C8_markSynced_idempotent_w :
    markChangesSynced (markChangesSynced
      [("tasks", [{ action := "update", data := { id := some "a", payload := "p" },
                    timestamp := 1000, synced := false, error := none }])]
      [("tasks", ["a"])] 1000) [("tasks", ["a"])] 1000
    = markChangesSynced
      [("tasks", [{ action := "update", data := { id := some "a", payload := "p" },
                    timestamp := 1000, synced := false, error := none }])]
      [("tasks", ["a"])] 1000 :=
  C8_markSynced_idempotent _ _ 1000 (by decide)

/-- Claim C9, confirmed.  When the action is not create, or the data already
    carries a truthy id, queueChange generates no client-local id: exactly
    one entry is appended to the key, carrying the data unchanged with
    synced=false and no error, every other key is untouched, and the return
    value is exactly the supplied data.id (none when the caller supplied
    none). -/
theorem C9_no_id_generation (s : Store) (et action : String)
    (d : EntityData) (now : Nat) (rand : String)
    (h : action = "create" → jsStrFalsy d.id = false) :
    lookup (queueChange s et action d now rand).1 et
        = some ((lookup s et).getD []
            ++ [{ action := action, data := d, timestamp := now,
                  synced := false, error := none }])
    ∧ (queueChange s et action d now rand).2 = d.id
    ∧ ∀ et2, et2 ≠ et →
        lookup (queueChange s et action d now rand).1 et2 = lookup s et2 := by
  have hguard : (action == "create" && jsStrFalsy d.id) = false := by
    by_cases ha : action = "create"
    · simp [ha, h ha]
    · simp [ha]
  refine ⟨?_, ?_, ?_⟩
  · simp [queueChange, hguard, lookup_setKey_self]
  · simp [queueChange, hguard]
  · intro et2 hne
    simp [queueChange, hguard, lookup_setKey_ne _ _ _ _ hne]

/-- Witness for C9_no_id_generation: an update with a caller-supplied id
    into an empty store. -/
theorem C9_no_id_generation_w :
    lookup (queueChange [] "tasks" "update"
        { id := some "x", payload := "p" } 5 "r").1 "tasks"
      = some [{ action := "update", data := { id := some "x", payload := "p" },
                timestamp := 5, synced := false, error := none }]
    ∧ (queueChange [] "tasks" "update"
        { id := some "x", payload := "p" } 5 "r").2 = some "x"
    ∧ lookup (queueChange [] "tasks" "update"
        { id := some "x", payload := "p" } 5 "r").1 "other" = lookup [] "other" := by
  have h := C9_no_id_generation [] "tasks" "update"
    { id := some "x", payload := "p" } 5 "r" (by decide)
  exact ⟨h.1, h.2.1, h.2.2 "other" (by decide)⟩

/-- Claim C10, confirmed.  A per-entry server error whose code is neither
    INVALID_DATA nor PERMISSION_DENIED is only logged: processing it leaves
    the Pending Changes Store exactly as it was, so no error field is
    attached anywhere and the referenced entry keeps no record of the
    failure. -/
theorem C10_nonfatal_error_is_noop (s : Store) (et : String)
    (e : ServerError) (h1 : e.code ≠ "INVALID_DATA")
    (h2 : e.code ≠ "PERMISSION_DENIED") :
    handleSyncErrors s [(et, [e])] = s := by
  simp [handleSyncErrors, handleErrList, handleOneError, h1, h2]

/-- Witness for C10_nonfatal_error_is_noop with a TIMEOUT error code. -/
theorem C10_nonfatal_error_is_noop_w :
    handleSyncErrors
      [("tasks", [{ action := "update", data := { id := some "a", payload := "p" },
                    timestamp := 5, synced := false, error := none }])]
      [("tasks", [{ id := "a", code := "TIMEOUT", message := "m" }])]
    = [("tasks", [{ action := "update", data := { id := some "a", payload := "p" },
                    timestamp := 5, synced := false, error := none }])] :=
  C10_nonfatal_error_is_noop _ _ _ (by decide) (by decide)

theorem lookup_none_not_key (s : Store) (et : String)
    (h : lookup s et = none) : et ∉ s.map Prod.fst := by
  induction s with
  | nil => simp
  | cons hd rest ih =>
    obtain ⟨k, chs⟩ := hd
    by_cases hk : k = et
    · subst hk
      simp [lookup] at h
    · simp only [lookup, if_neg hk] at h
      simp only [List.map_cons, List.mem_cons]
      push_neg
      exact ⟨fun he => hk he.symm, ih h⟩

/-- Claim C3, corrected.  The claim says an entry with an error set is never
    also marked synced=true.  That holds in one direction only:
    handleSyncErrors attaches errors exclusively to entries that are not
    synced (proved here: any entry of the store after handleSyncErrors is
    either an untouched original entry or is unsynced).  But
    markChangesSynced marks entries synced without consulting the error
    field, so when the server lists the same id both under errors and under
    syncedIds the entry ends with the error set and synced=true (see the
    counterexample). -/
theorem C3_errors_attach_only_unsynced (et : String) (c : Change)
    (errors : List (String × List ServerError)) :
    ∀ s : Store, c ∈ lookupD (handleSyncErrors s errors) et →
      c ∈ lookupD s et ∨ c.synced = false := by
  induction errors with
  | nil => intro s hc; exact Or.inl hc
  | cons hd rest ih =>
    intro s hc
    obtain ⟨et1, es⟩ := hd
    rcases ih _ hc with h | h
    · exact handleErrList_elim et1 es s h
    · exact Or.inr h

/-- Witness for C3_errors_attach_only_unsynced: the entry that received the
    INVALID_DATA error is unsynced. -/
theorem C3_errors_attach_only_unsynced_w :
    ({ action := "update", data := { id := some "a", payload := "p" },
         timestamp := 5, synced := false,
         error := some { code := "INVALID_DATA", message := "m" } } : Change)
        ∈ lookupD
          [("tasks",
            [{ action := "update",
               data := { id := some "a", payload := "p" },
               timestamp := 5, synced := false, error := none }])] "tasks"
    ∨ ({ action := "update", data := { id := some "a", payload := "p" },
         timestamp := 5, synced := false,
         error := some { code := "INVALID_DATA", message := "m" } } : Change).synced
        = false :=
  C3_errors_attach_only_unsynced "tasks" _
    [("tasks", [{ id := "a", code := "INVALID_DATA", message := "m" }])]
    _ (by decide)

/-- Counterexample to claim C3 as stated: one push response listing id a
    both under errors (INVALID_DATA) and under syncedIds leaves the entry
    with the error attached and synced=true, two outcomes at once. -/
theorem C3_two_outcomes_cex :
    ∃ c ∈ lookupD (processPushResponse
        [("tasks",
          [{ action := "update",
             data := { id := some "a", payload := "p" },
             timestamp := 1000, synced := false, error := none }])]
        { syncedIds := [("tasks", ["a"])], conflicts := [],
          errors :=
            [("tasks",
              [{ id := "a", code := "INVALID_DATA",
                 message := "bad" }])] } 1000) "tasks",
      c.synced = true ∧ c.error ≠ none := by decide

/-- Claim C4, corrected.  The claim says every mutating call sweeps
    hour-old synced entries.  The sweep exists only inside markChangesSynced
    and only for the entity types named in its syncedIds argument.  Amended
    statement: after markChangesSynced, within a named entity type, every
    remaining entry is unsynced or under an hour old, and every entry that
    was unsynced and not in the reported id list is retained regardless of
    age; entity types not named in syncedIds are untouched.  Other mutating
    calls never sweep (see the counterexample: queueChange leaves an
    hour-old synced entry in place). -/
theorem C4_retention_sweep_only_markSynced (s : Store)
    (sids : List (String × List String)) (now : Nat) (et : String)
    (ids : List String) (hnd : (sids.map Prod.fst).Nodup)
    (hmem : (et, ids) ∈ sids) :
    (∀ c ∈ lookupD (markChangesSynced s sids now) et,
        c.synced = false ∨ (now : Int) - 3600000 < (c.timestamp : Int))
    ∧ (∀ c ∈ lookupD s et, c.synced = false →
        idsContains ids c.data.id = false →
        c ∈ lookupD (markChangesSynced s sids now) et)
    ∧ (∀ et2, et2 ∉ sids.map Prod.fst →
        lookup (markChangesSynced s sids now) et2 = lookup s et2) := by
  have hchar := @lookup_markChangesSynced_char et ids now sids hnd hmem s
  refine ⟨?_, ?_, ?_⟩
  · intro c hc
    rw [lookupD, hchar] at hc
    cases hl : lookup s et with
    | none =>
      rw [hl] at hc
      simp at hc
    | some chs =>
      rw [hl] at hc
      simp only [Option.map_some', Option.getD_some] at hc
      unfold sweepAndMark at hc
      have hk := (List.mem_filter.mp hc).2
      simp only [keepAfterSweep, Bool.or_eq_true, Bool.not_eq_true',
        decide_eq_true_eq] at hk
      exact hk
  · intro c hc hsy hni
    rw [lookupD, hchar]
    cases hl : lookup s et with
    | none =>
      rw [lookupD, hl] at hc
      simp at hc
    | some chs =>
      rw [lookupD, hl, Option.getD_some] at hc
      simp only [Option.map_some', Option.getD_some]
      unfold sweepAndMark
      refine List.mem_filter.mpr ⟨?_, ?_⟩
      · refine List.mem_map.mpr ⟨c, hc, ?_⟩
        simp [markOne, hni]
      · simp [keepAfterSweep, hsy]
  · intro et2 h2
    exact lookup_markChangesSynced_not_mem sids h2 s

/-- Witness for C4_retention_sweep_only_markSynced: the unsynced entry with
    an unreported id stays, it satisfies the sweep invariant, and the
    entity type absent from syncedIds is untouched. -/
theorem C4_retention_sweep_only_markSynced_w :
    wUnsyncedB ∈ lookupD (markChangesSynced wStoreC4
        [("tasks", ["a"])] 10000000) "tasks"
    ∧ (wUnsyncedB.synced = false
        ∨ (10000000 : Int) - 3600000 < (wUnsyncedB.timestamp : Int))
    ∧ lookup (markChangesSynced wStoreC4 [("tasks", ["a"])] 10000000) "keep"
        = lookup wStoreC4 "keep" := by
  have h := C4_retention_sweep_only_markSynced wStoreC4 [("tasks", ["a"])]
    10000000 "tasks" ["a"] (by decide) (by decide)
  exact ⟨h.2.1 wUnsyncedB (by decide) (by decide) (by decide),
    h.1 wUnsyncedB (h.2.1 wUnsyncedB (by decide) (by decide) (by decide)),
    h.2.2 "keep" (by decide)⟩

/-- Counterexample to claim C4 as stated: queueChange is a mutating call,
    yet after it an entry that is synced=true and far more than one hour old
    (timestamp 0 at clock 10000000) is still present in the store. -/
theorem C4_no_sweep_on_queue_cex :
    ({ action := "update", data := { id := some "a", payload := "p" },
         timestamp := 0, synced := true, error := none } : Change)
        ∈ lookupD (queueChange
            [("tasks",
              [{ action := "update",
                 data := { id := some "a", payload := "p" },
                 timestamp := 0, synced := true, error := none }])]
            "tasks" "update" { id := some "y", payload := "w" }
            10000000 "r").1 "tasks"
    ∧ ({ action := "update", data := { id := some "a", payload := "p" },
         timestamp := 0, synced := true, error := none } : Change).synced = true
    ∧ ¬((10000000 : Int) - 3600000 < ((0 : Nat) : Int)) := by decide

theorem getUnsynced_lookup_of_unsynced (et : String) (chs : List Change)
    (s : Store) (hnd : (s.map Prod.fst).Nodup)
    (h : lookup s et = some chs)
    (hne : chs.filter (fun c => !c.synced) ≠ []) :
    lookup (getUnsynced s) et = some (chs.filter (fun c => !c.synced)) := by
  induction s with
  | nil => cases h
  | cons hd rest ih =>
    obtain ⟨k, chs1⟩ := hd
    simp only [List.map_cons, List.nodup_cons] at hnd
    unfold getUnsynced
    by_cases he : k = et
    · subst he
      simp only [lookup, if_pos rfl] at h
      injection h with h
      subst h
      split
      · rename_i hemp
        exact absurd (List.isEmpty_iff.mp hemp) hne
      · simp [lookup]
    · simp only [lookup, if_neg he] at h
      split
      · exact ih hnd.2 h
      · simp only [lookup, if_neg he]
        exact ih hnd.2 h

/-- Claim C7, confirmed.  getUnsynced returns exactly the unsynced entries
    grouped by entity type, in both directions: a key of the result maps to
    the nonempty filtered unsynced part of the corresponding store entry
    (soundness), and every store key with a nonempty unsynced part appears
    in the result bound to exactly that filtered part (completeness); a type
    whose entries are all synced, or with no entries, is absent from the
    result; and the result is the empty mapping exactly when no unsynced
    entry exists anywhere. -/
theorem C7_getUnsynced_exactly_unsynced (s : Store)
    (hnd : (s.map Prod.fst).Nodup) :
    (∀ et u, lookup (getUnsynced s) et = some u →
        ∃ chs, lookup s et = some chs
          ∧ u = chs.filter (fun c => !c.synced) ∧ u ≠ [])
    ∧ (∀ et chs, lookup s et = some chs →
        chs.filter (fun c => !c.synced) = [] →
        lookup (getUnsynced s) et = none)
    ∧ (∀ et, lookup s et = none → lookup (getUnsynced s) et = none)
    ∧ (getUnsynced s = [] ↔ ∀ p ∈ s, ∀ c ∈ p.2, c.synced = true)
    ∧ (∀ et chs, lookup s et = some chs →
        chs.filter (fun c => !c.synced) ≠ [] →
        lookup (getUnsynced s) et
          = some (chs.filter (fun c => !c.synced))) := by
  refine ⟨fun et u h => getUnsynced_lookup_some et u s hnd h,
    fun et chs h hall => getUnsynced_lookup_of_all_synced et chs s hnd h hall,
    fun et h => lookup_getUnsynced_none et s (lookup_none_not_key s et h),
    getUnsynced_eq_nil_iff s,
    fun et chs h hne => getUnsynced_lookup_of_unsynced et chs s hnd h hne⟩

/-- Witness for C7_getUnsynced_exactly_unsynced on a two-type store with one
    unsynced and one fully synced type. -/
theorem C7_getUnsynced_exactly_unsynced_w :
    (∃ chs, lookup wStoreC7 "a" = some chs
      ∧ [wUnsyncedU] = chs.filter (fun c => !c.synced) ∧ [wUnsyncedU] ≠ [])
    ∧ lookup (getUnsynced wStoreC7) "b" = none
    ∧ lookup (getUnsynced wStoreC7) "c" = none
    ∧ lookup (getUnsynced wStoreC7) "a"
        = some ([wUnsyncedU].filter (fun c => !c.synced))
    ∧ getUnsynced wStoreC7 ≠ [] := by
  have h := C7_getUnsynced_exactly_unsynced wStoreC7 (by decide)
  refine ⟨h.1 "a" [wUnsyncedU] (by decide),
    h.2.1 "b" [wSyncedS] (by decide) (by decide),
    h.2.2.1 "c" (by decide),
    h.2.2.2.2 "a" [wUnsyncedU] (by decide) (by decide), fun hnil => ?_⟩
  have h2 := (h.2.2.2.1.mp hnil) ("a", [wUnsyncedU]) (by decide)
    wUnsyncedU (by decide)
  simp [wUnsyncedU] at h2

/-- Claim C5, corrected.  The unqualified claim is false: when the pushed
    entry is itself over an hour old at the marking clock, resolveConflicts
    marks it synced and the sweep inside markChangesSynced then drops it in
    the same response, so no final entry carries the serverVersion (see the
    counterexample below).  Amended statement, qualified exactly by what the
    counterexample forces: when a push response reports a conflict {id,
    serverVersion} for an entity type holding an unsynced entry with that id
    and every such candidate entry is under an hour old at the marking clock
    (so the sweep cannot drop the resolved entry), the processed store
    contains an entry whose data is the serverVersion and which is
    synced=true: the conflict resolution applied first is not overwritten by
    the later synced-marking, whatever ids the syncedIds and errors objects
    list. -/
theorem C5_conflict_precedence (s : Store) (et cid : String)
    (sv : EntityData) (cs : List Conflict)
    (rest : List (String × List Conflict))
    (sids : List (String × List String))
    (errors : List (String × List ServerError)) (now : Nat)
    (chs : List Change) (hchs : lookup s et = some chs)
    (hex : ∃ x, x ∈ chs ∧ pendingWithId cid x = true)
    (hyoung : ∀ x ∈ chs, pendingWithId cid x = true →
      (now : Int) - 3600000 < (x.timestamp : Int)) :
    ∃ c, c ∈ lookupD (processPushResponse s
        { syncedIds := sids,
          conflicts := (et, { id := cid, serverVersion := sv } :: cs) :: rest,
          errors := errors } now) et
      ∧ c.data = sv ∧ c.synced = true := by
  have h1 : resolveOne s et { id := cid, serverVersion := sv }
      = setKey s et (updateFirst (pendingWithId cid)
          (fun c => { c with data := sv, synced := true }) chs) := by
    unfold resolveOne
    rw [updateAtFirstMatch_eq]
    simp only [hchs]
  obtain ⟨x, hx, hpx, hfx⟩ := updateFirst_exists_mem
    (fun c => { c with data := sv, synced := true }) hex
  have hrs : ({ x with data := sv, synced := true } : Change).synced = true := rfl
  have hry : (now : Int) - 3600000
      < (({ x with data := sv, synced := true } : Change).timestamp : Int) :=
    hyoung x hx hpx
  have hmem1 : ({ x with data := sv, synced := true } : Change)
      ∈ lookupD (resolveOne s et { id := cid, serverVersion := sv }) et := by
    rw [h1, lookupD, lookup_setKey_self]
    exact hfx
  have hmem2 := resolveList_preserves et cs hrs _ hmem1
  have hmem3 := resolveConflicts_preserves rest hrs _ hmem2
  have hmem4 : ({ x with data := sv, synced := true } : Change)
      ∈ lookupD (handleSyncResponse s
        { syncedIds := sids,
          conflicts := (et, { id := cid, serverVersion := sv } :: cs) :: rest,
          errors := errors }) et := by
    cases he : errors.isEmpty with
    | true =>
      simp only [handleSyncResponse, he, List.isEmpty_cons, if_true,
        Bool.false_eq_true, if_false]
      exact hmem3
    | false =>
      simp only [handleSyncResponse, he, List.isEmpty_cons,
        Bool.false_eq_true, if_false]
      exact handleSyncErrors_preserves errors hrs _ hmem3
  exact ⟨_, markChangesSynced_preserves sids hrs hry _ hmem4, rfl, rfl⟩

/-- Witness for C5_conflict_precedence: id a reported both as a conflict
    with a new server version and in syncedIds; the final entry carries the
    server version and synced=true. -/
theorem C5_conflict_precedence_w :
    ∃ c, c ∈ lookupD (processPushResponse
        [("tasks",
          [{ action := "update",
             data := { id := some "a", payload := "old" },
             timestamp := 1000, synced := false, error := none }])]
        { syncedIds := [("tasks", ["a"])],
          conflicts :=
            [("tasks",
              [{ id := "a",
                 serverVersion := { id := some "a", payload := "new" } }])],
          errors := [] } 1000) "tasks"
      ∧ c.data = { id := some "a", payload := "new" } ∧ c.synced = true :=
  C5_conflict_precedence _ "tasks" "a" _ [] [] [("tasks", ["a"])] [] 1000 _
    rfl (by decide) (by decide)

/-- Counterexample to claim C5 as stated, without an age qualification: the
    conflicting entry was queued over an hour before the marking clock
    (timestamp 0, clock 10000000), its id a appears both in conflicts and in
    syncedIds, and after processing the response the entity type holds no
    entry at all: resolveConflicts marked the entry synced with the server
    version and the sweep of markChangesSynced dropped it in the same call,
    so no final entry has data equal to the serverVersion. -/
theorem C5_resolved_entry_swept_cex :
    lookupD (processPushResponse
        [("tasks",
          [{ action := "update",
             data := { id := some "a", payload := "old" },
             timestamp := 0, synced := false, error := none }])]
        { syncedIds := [("tasks", ["a"])],
          conflicts :=
            [("tasks",
              [{ id := "a",
                 serverVersion := { id := some "a", payload := "new" } }])],
          errors := [] } 10000000) "tasks" = []
    ∧ ¬∃ c, c ∈ lookupD (processPushResponse
        [("tasks",
          [{ action := "update",
             data := { id := some "a", payload := "old" },
             timestamp := 0, synced := false, error := none }])]
        { syncedIds := [("tasks", ["a"])],
          conflicts :=
            [("tasks",
              [{ id := "a",
                 serverVersion := { id := some "a", payload := "new" } }])],
          errors := [] } 10000000) "tasks"
      ∧ c.data = { id := some "a", payload := "new" } ∧ c.synced = true := by
  decide
